import Mathlib

/-!
Verification of the SOTAforge pipeline orchestrator against its
natural-language specification.

The definitions below are a shallow embedding of the Python sources
`src/sotaforge/agents/orchestrator.py`, `src/sotaforge/agents/db_agent.py`,
`src/sotaforge/agents/filter_agent.py`, `src/sotaforge/api.py` and
`src/sotaforge/client.py`.  Python runtime values (dicts, lists, strings,
ints, None, and the two SDK duck-typed shapes the orchestrator inspects:
objects with a `.content` attribute and objects with a `.text` attribute)
are embedded as the inductive type `PyValue`.  The standard-library
`json.loads` is embedded as a strict recursive-descent parser over the same
value type; floating-point literals are not modelled (a numeric literal
followed by a fractional part or exponent is treated as a parse failure),
which is irrelevant to every property proved here.  Effectful pieces
(the OpenAI chat endpoint, the pydantic-ai scoring agent,
`ast.literal_eval`, the Chroma upsert) are passed in as explicit oracle
parameters, and time (`asyncio.sleep`) is recorded in an action trace.
-/

/-- Embedding of the Python runtime values the orchestrator manipulates. -/
inductive PyValue where
  | pnone : PyValue
  | pbool (b : Bool) : PyValue
  | pint (n : Int) : PyValue
  | prat (q : Rat) : PyValue
  | pstr (s : String) : PyValue
  | plist (xs : List PyValue) : PyValue
  | pdict (entries : List (String × PyValue)) : PyValue
  | sdkResult (content : PyValue) : PyValue
  | textObj (t : String) : PyValue

/-- First-occurrence lookup in a dict's entry list (Python dict keys are
unique, later inserts overwrite in place via `pyDictInsert`). -/
def lookupEntry : List (String × PyValue) → String → Option PyValue
  | [], _ => none
  | (k, v) :: rest, key => if k == key then some v else lookupEntry rest key

/-- Python `d.get(key)`: `None` when the key is absent.  Non-dict receivers
are mapped to `None` as well (the orchestrator only calls `.get` on dict
turns; see the comments at the call sites). -/
def pyGet (v : PyValue) (key : String) : PyValue :=
  match v with
  | .pdict entries => (lookupEntry entries key).getD .pnone
  | _ => .pnone

/-- Python `d.get(key, default)`. -/
def pyGetD (v : PyValue) (key : String) (dflt : PyValue) : PyValue :=
  match v with
  | .pdict entries => (lookupEntry entries key).getD dflt
  | _ => dflt

/-- Python `isinstance(v, dict)`. -/
def isDict : PyValue → Bool
  | .pdict _ => true
  | _ => false

/-- Python truthiness. -/
def pyTruthy : PyValue → Bool
  | .pnone => false
  | .pbool b => b
  | .pint n => !(n == 0)
  | .prat q => !(q == 0)
  | .pstr s => !(s == "")
  | .plist xs => !xs.isEmpty
  | .pdict es => !es.isEmpty
  | .sdkResult _ => true
  | .textObj _ => true

/-- Python dict insertion: an existing key keeps its position and gets the
new value, a fresh key is appended. -/
def pyDictInsert : List (String × PyValue) → String → PyValue → List (String × PyValue)
  | [], k, v => [(k, v)]
  | (k', v') :: rest, k, v =>
    if k' == k then (k', v) :: rest else (k', v') :: pyDictInsert rest k v

/-- Occurrence of one character list inside another. -/
def listInfix (needle : List Char) : List Char → Bool
  | [] => needle.isEmpty
  | c :: rest => needle.isPrefixOf (c :: rest) || listInfix needle rest

/-- Python `needle in hay` on strings. -/
def containsSub (needle hay : String) : Bool :=
  listInfix needle.data hay.data

/-- Python `s.startswith(p)`. -/
def strStartsWith (s p : String) : Bool :=
  p.data.isPrefixOf s.data

/-- Python `s.endswith(p)`. -/
def strEndsWith (s p : String) : Bool :=
  p.data.reverse.isPrefixOf s.data.reverse

/-- The whitespace set of Python `str.strip()` (ASCII part). -/
def pyIsSpace (c : Char) : Bool :=
  c == ' ' || c == '\t' || c == '\n' || c == '\r' || c == Char.ofNat 11 || c == Char.ofNat 12

/-- Python `s.strip()`. -/
def pyStrip (s : String) : String :=
  String.mk (((s.data.dropWhile pyIsSpace).reverse.dropWhile pyIsSpace).reverse)

/-- Python `s.upper()` (ASCII part). -/
def pyUpper (s : String) : String :=
  String.mk (s.data.map Char.toUpper)

/-! ### `json.loads`, embedded as a strict recursive-descent parser -/

/-- JSON whitespace. -/
def jsonWs (c : Char) : Bool :=
  c == ' ' || c == '\t' || c == '\n' || c == '\r'

def skipWs (cs : List Char) : List Char := cs.dropWhile jsonWs

def hexVal (c : Char) : Option Nat :=
  if c.isDigit then some (c.toNat - 48)
  else if 'a' ≤ c ∧ c ≤ 'f' then some (c.toNat - 87)
  else if 'A' ≤ c ∧ c ≤ 'F' then some (c.toNat - 55)
  else none

/-- Body of a JSON string literal (the opening quote already consumed);
returns the decoded string and the rest of the input.  Raw control
characters and unknown escapes are rejected, as in strict `json.loads`. -/
def parseStringLitGo : List Char → List Char → Option (String × List Char)
  | _, [] => none
  | acc, c :: rest =>
    if c == '"' then some (String.mk acc.reverse, rest)
    else if c == '\\' then
      match rest with
      | [] => none
      | e :: rest2 =>
        if e == '"' then parseStringLitGo ('"' :: acc) rest2
        else if e == '\\' then parseStringLitGo ('\\' :: acc) rest2
        else if e == '/' then parseStringLitGo ('/' :: acc) rest2
        else if e == 'n' then parseStringLitGo ('\n' :: acc) rest2
        else if e == 't' then parseStringLitGo ('\t' :: acc) rest2
        else if e == 'r' then parseStringLitGo ('\r' :: acc) rest2
        else if e == 'b' then parseStringLitGo (Char.ofNat 8 :: acc) rest2
        else if e == 'f' then parseStringLitGo (Char.ofNat 12 :: acc) rest2
        else if e == 'u' then
          match rest2 with
          | h1 :: h2 :: h3 :: h4 :: rest3 =>
            match hexVal h1, hexVal h2, hexVal h3, hexVal h4 with
            | some a, some b, some c2, some d =>
              parseStringLitGo (Char.ofNat (((a * 16 + b) * 16 + c2) * 16 + d) :: acc) rest3
            | _, _, _, _ => none
          | _ => none
        else none
    else if c.toNat < 32 then none
    else parseStringLitGo (c :: acc) rest

/-- Consume a run of decimal digits, accumulating their value. -/
def parseDigits : List Char → Nat → Nat × List Char
  | [], acc => (acc, [])
  | c :: rest, acc =>
    if c.isDigit then parseDigits rest (acc * 10 + (c.toNat - 48)) else (acc, c :: rest)

/-- A JSON integer literal.  A fractional part or exponent (a float) is not
modelled and yields a parse failure. -/
def parseIntLit (cs : List Char) : Option (PyValue × List Char) :=
  let (neg, cs2) := match cs with
    | '-' :: r => (true, r)
    | r => (false, r)
  match cs2 with
  | [] => none
  | c :: _ =>
    if c.isDigit then
      let (n, rest) := parseDigits cs2 0
      match rest with
      | '.' :: _ => none
      | 'e' :: _ => none
      | 'E' :: _ => none
      | _ => some (.pint (if neg then -(n : Int) else (n : Int)), rest)
    else none

/-- Parser state: a value, the inside of an object (fresh / expecting a
member / after a member), or the inside of an array. -/
inductive PMode where
  | pval
  | objStart
  | objMember (acc : List (String × PyValue))
  | objCont (acc : List (String × PyValue))
  | arrStart
  | arrCont (acc : List PyValue)

/-- Fuel-indexed recursive-descent JSON parser. -/
def parseGo : Nat → PMode → List Char → Option (PyValue × List Char)
  | 0, _, _ => none
  | fuel + 1, mode, cs =>
    match mode with
    | .pval =>
      match skipWs cs with
      | [] => none
      | c :: rest =>
        if c == '{' then parseGo fuel .objStart rest
        else if c == '[' then parseGo fuel .arrStart rest
        else if c == '"' then (parseStringLitGo [] rest).map (fun p => (.pstr p.1, p.2))
        else if c == 't' then
          match rest with
          | 'r' :: 'u' :: 'e' :: r => some (.pbool true, r)
          | _ => none
        else if c == 'f' then
          match rest with
          | 'a' :: 'l' :: 's' :: 'e' :: r => some (.pbool false, r)
          | _ => none
        else if c == 'n' then
          match rest with
          | 'u' :: 'l' :: 'l' :: r => some (.pnone, r)
          | _ => none
        else parseIntLit (c :: rest)
    | .objStart =>
      match skipWs cs with
      | '}' :: rest => some (.pdict [], rest)
      | other => parseGo fuel (.objMember []) other
    | .objMember acc =>
      match skipWs cs with
      | '"' :: rest =>
        match parseStringLitGo [] rest with
        | none => none
        | some (key, rest2) =>
          match skipWs rest2 with
          | ':' :: rest3 =>
            match parseGo fuel .pval rest3 with
            | none => none
            | some (v, rest4) => parseGo fuel (.objCont (pyDictInsert acc key v)) rest4
          | _ => none
      | _ => none
    | .objCont acc =>
      match skipWs cs with
      | '}' :: rest => some (.pdict acc, rest)
      | ',' :: rest => parseGo fuel (.objMember acc) rest
      | _ => none
    | .arrStart =>
      match skipWs cs with
      | ']' :: rest => some (.plist [], rest)
      | other =>
        match parseGo fuel .pval other with
        | none => none
        | some (v, rest2) => parseGo fuel (.arrCont [v]) rest2
    | .arrCont acc =>
      match skipWs cs with
      | ']' :: rest => some (.plist acc.reverse, rest)
      | ',' :: rest =>
        match parseGo fuel .pval rest with
        | none => none
        | some (v, rest2) => parseGo fuel (.arrCont (v :: acc)) rest2
      | _ => none

/-- Embedded `json.loads`: parse a complete JSON document, rejecting trailing
garbage.  `none` models a raised `JSONDecodeError`. -/
def json_loads (s : String) : Option PyValue :=
  match parseGo (2 * s.length + 4) .pval s.data with
  | some (v, rest) => if (skipWs rest).isEmpty then some v else none
  | none => none

/-! ### `_trim_message_history` (orchestrator.py) -/

/-- Test `m.get("role") == "tool"` for a transcript turn.  Turns appended by the
orchestrator are always dicts; `.get` duck-typing on a non-dict is modelled
as a `None` lookup. -/
def isToolTurn (m : PyValue) : Bool :=
  match pyGet m "role" with
  | .pstr s => s == "tool"
  | _ => false

/-- Role of the turn at index `i`, out-of-range reads as non-tool (the
Python loop exits when `recent_messages` is empty). -/
def toolAt (messages : List PyValue) (i : Nat) : Bool :=
  ((messages.drop i).head?.map isToolTurn).getD false

/-- The `while` loop of `_trim_message_history`: starting from
`start_idx = len(messages) - max_messages`, decrement while the first kept
turn is a tool turn and `start_idx > 0`. -/
def trimLoop (messages : List PyValue) : Nat → Nat
  | 0 => 0
  | s + 1 => if toolAt messages (s + 1) then trimLoop messages s else s + 1

/-- Embedding of `_trim_message_history(messages, max_messages)`. -/
def _trim_message_history (messages : List PyValue) (maxMessages : Nat) : List PyValue :=
  if messages.length ≤ maxMessages then messages
  else messages.drop (trimLoop messages (messages.length - maxMessages))

/-! ### `_chat_with_rate_limit_retry` (orchestrator.py) -/

/-- A provider `RateLimitError`, identified by its rendered text `str(e)`. -/
structure RateLimitErr where
  msg : String

/-- Outcome of one `llm.chat.completions.create` call: a response or a
raised `RateLimitError` (other exception types pass through both the code
and this model untouched and are not represented). -/
inductive ChatAttempt (α : Type) where
  | ok (r : α) : ChatAttempt α
  | throttle (e : RateLimitErr) : ChatAttempt α

/-- Observable actions of the retry wrapper, in order: outgoing chat calls
(with the message list actually sent) and `asyncio.sleep` cooldowns. -/
inductive RLTraceStep where
  | chatCall (msgs : List PyValue) : RLTraceStep
  | sleepSecs (n : Nat) : RLTraceStep

/-- Embedding of `_chat_with_rate_limit_retry(messages, openai_tools)`.  The provider is
an oracle giving the outcome of the n-th call attempt on a message list.
Returns the propagated result and the trace of calls and cooldowns. -/
def _chat_with_rate_limit_retry {α : Type}
    (provider : Nat → List PyValue → ChatAttempt α)
    (messages : List PyValue) : Except RateLimitErr α × List RLTraceStep :=
  match provider 0 messages with
  | .ok r => (.ok r, [.chatCall messages])
  | .throttle e =>
    if containsSub "Request too large" e.msg || containsSub "must be reduced" e.msg then
      match provider 1 messages with
      | .ok r => (.ok r, [.chatCall messages, .sleepSecs 60, .chatCall messages])
      | .throttle _ =>
        let trimmed := _trim_message_history messages 5
        match provider 2 trimmed with
        | .ok r =>
          (.ok r,
            [.chatCall messages, .sleepSecs 60, .chatCall messages,
             .sleepSecs 60, .chatCall trimmed])
        | .throttle e3 =>
          (.error e3,
            [.chatCall messages, .sleepSecs 60, .chatCall messages,
             .sleepSecs 60, .chatCall trimmed])
    else
      (.error e, [.chatCall messages])

/-! ### Approval detection (`validate_step`, orchestrator.py) -/

/-- The approval predicate of `validate_step`:
`bool(msg.content and msg.content.strip().upper().startswith("APPROVE"))`.
`none` models `msg.content is None`. -/
def approvedOf (content : Option String) : Bool :=
  match content with
  | none => false
  | some s => if s == "" then false else strStartsWith (pyUpper (pyStrip s)) "APPROVE"

/-! ### `_normalize_tool_result` (orchestrator.py) -/

/-- Embedding of `_normalize_tool_result(result)`. -/
def _normalize_tool_result (result : PyValue) : PyValue :=
  -- 1. unwrap SDK result (`hasattr(result, "content")`)
  let content : PyValue := match result with
    | .sdkResult c => c
    | r => r
  -- 2. single-element list whose item has a `.text` attribute
  let content : PyValue := match content with
    | .plist [.textObj t] => .pstr t
    | c => c
  -- 3. strict JSON parse of string content; failures leave it unchanged
  match content with
  | .pstr s => (json_loads s).getD (.pstr s)
  | c => c

/-! ### `_extract_synthesized_sota_text` (orchestrator.py) -/

/-- Outcome of the loop body of `_extract_synthesized_sota_text` on one
turn: skip to the previous turn (`continue` / falling through), return a
text, or raise an uncaught `AttributeError` (`.get` / `.endswith` on a
non-dict / non-string that escaped the narrow `try` around `json.loads`). -/
inductive ScanOutcome where
  | skip : ScanOutcome
  | found (t : String) : ScanOutcome
  | err : ScanOutcome

/-- One iteration of the backward scan. -/
def scanMsg (msg : PyValue) : ScanOutcome :=
  if isDict msg && isToolTurn msg then
    let payload := pyGet msg "content"
    -- data = json.loads(payload) if isinstance(payload, str) else payload
    -- (the try/except turns a parse failure into `continue`)
    let dataOpt : Option PyValue := match payload with
      | .pstr s => json_loads s
      | p => some p
    match dataOpt with
    | none => .skip
    | some data =>
      -- tool_name = (data or {}).get("tool_name")
      let d := if pyTruthy data then data else .pdict []
      match d with
      | .pdict _ =>
        let toolName := pyGet d "tool_name"
        if !pyTruthy toolName then .skip
        else
          match toolName with
          | .pstr name =>
            if name == "synthesizer_write_sota" || strEndsWith name "write_sota" then
              match pyGet d "result" with
              | .pdict rentries =>
                -- text = result.get("text") or result.get("sota")
                let textVal :=
                  if pyTruthy ((lookupEntry rentries "text").getD .pnone)
                  then (lookupEntry rentries "text").getD .pnone
                  else (lookupEntry rentries "sota").getD .pnone
                match textVal with
                | .pstr t => .found t
                | _ => .skip
              | _ => .skip
            else .skip
          | _ => .err   -- truthy non-string: `.endswith` raises
      | _ => .err       -- truthy non-dict: `.get` raises
  else .skip

/-- The backward scan itself (over the reversed transcript). -/
def extractScan : List PyValue → Except Unit String
  | [] => .ok ""
  | m :: rest =>
    match scanMsg m with
    | .found t => .ok t
    | .skip => extractScan rest
    | .err => .error ()

/-- Embedding of `_extract_synthesized_sota_text(messages)`; `Except.error` models an
uncaught exception escaping the function. -/
def _extract_synthesized_sota_text (messages : List PyValue) : Except Unit String :=
  extractScan messages.reverse

/-! ### `run_pipeline_step` validation loop and `run_llm_sota` result
(orchestrator.py) -/

/-- The bounded validation loop of `run_pipeline_step`:
`while not approved and number_of_tries < MAX_RETRIES: approved, _ =
validate_step(...); number_of_tries += 1`.  The validator oracle gives the
approval verdict of the n-th validator call; `remaining` is
`MAX_RETRIES - number_of_tries` (`number_of_tries` starts at 1).  Returns
the number of validator calls made and the final `approved` flag. -/
def validationLoop (validator : Nat → Bool) (approved : Bool) (calls : Nat) :
    Nat → Nat × Bool
  | 0 => (calls, approved)
  | remaining + 1 =>
    if approved then (calls, approved)
    else validationLoop validator (validator calls) (calls + 1) remaining

/-- Terminal progress event of a pipeline step. -/
inductive StepEvent where
  | completedOk : StepEvent          -- "✓ ... step completed successfully"
  | completedWithWarnings : StepEvent -- "⚠ ... step completed with warnings"

/-- The validation phase of `run_pipeline_step`: run the bounded loop, then
emit the terminal event; exhausting retries never raises. -/
def run_pipeline_step (validator : Nat → Bool) (maxRetries : Nat) :
    Nat × StepEvent :=
  let (calls, approved) := validationLoop validator false 0 (maxRetries - 1)
  (calls, if approved then .completedOk else .completedWithWarnings)

/-- Tail of `run_llm_sota(topic)`: extract the synthesized text from the
final transcript and return `{"topic": .., "status": "completed",
"text": ..}`.  An exception escaping the extractor propagates. -/
def run_llm_sota_result (topic : String) (finalMessages : List PyValue) :
    Except Unit PyValue :=
  match _extract_synthesized_sota_text finalMessages with
  | .error e => .error e
  | .ok sotaText =>
    .ok (.pdict [("topic", .pstr topic), ("status", .pstr "completed"),
                 ("text", .pstr sotaText)])

/-! ### Run entry points (client.py `call_produce_sota`, api.py
`SOTARequest`) -/

/-- The guard of `call_produce_sota(topic)` in client.py:
`if not topic or not topic.strip(): raise ValueError("Topic cannot be
empty")`; on success the stripped topic is what reaches `run_llm_sota`. -/
def call_produce_sota_guard (topic : String) : Except String String :=
  if topic == "" || pyStrip topic == "" then .error "Topic cannot be empty"
  else .ok (pyStrip topic)

/-- Validation performed by the pydantic request model `SOTARequest`
(api.py): `topic: str = Field(..., min_length=1)` — the only constraint is
non-zero length. -/
def sotaRequestValid (topic : String) : Bool :=
  1 ≤ topic.length

/-! ### `store_tool_results` (db_agent.py) -/

/-- Result-payload processing of the inner `try` block of
`store_tool_results` for one matching tool message: parse a string content
with `json.loads`, falling back to `ast.literal_eval` (an oracle —
standard-library code), then unwrap a `"result"` wrapper and collect the
dict items to store.  `none` models the raised-and-caught `DatabaseError`
(→ `continue` with the next message). -/
def processToolMsg (astEval : String → Option PyValue) (msg : PyValue) :
    Option (List PyValue) :=
  let content := pyGet msg "content"
  let parsed : Option PyValue := match content with
    | .pstr s =>
      match json_loads s with
      | some d => some d
      | none => astEval s    -- none: both parses failed, DatabaseError raised
    | p => some p
  match parsed with
  | none => none
  | some data0 =>
    -- unwrap the orchestrator wrapper's "result" field
    let data : PyValue := match data0 with
      | .pdict entries =>
        match lookupEntry entries "result" with
        | some inner => inner
        | none => .pdict entries
      | d => d
    -- dispatch on the shape of the payload
    match data with
    | .pdict entries =>
      match lookupEntry entries "results" with
      | some (.plist rs) => some (rs.filter isDict)
      | some (.pdict res) => some [.pdict res]
      | some _ => some []        -- "results" present but neither list nor dict
      | none => some [.pdict entries]
    | .plist rs => some (rs.filter isDict)
    | _ => some []               -- unexpected format: warn, store nothing

/-- Test `msg.get("tool_call_id") == tool_call_id`. -/
def toolCallIdMatches (msg : PyValue) (toolCallId : String) : Bool :=
  match pyGet msg "tool_call_id" with
  | .pstr s => s == toolCallId
  | _ => false

/-- Inner `for msg in msgs` loop for one `tool_call_id`: the first tool
message carrying the id is processed and the loop `break`s; a processing
exception `continue`s the scan with later messages. -/
def findToolResult (astEval : String → Option PyValue) (toolCallId : String) :
    List PyValue → List PyValue
  | [] => []
  | msg :: rest =>
    if isToolTurn msg && toolCallIdMatches msg toolCallId then
      match processToolMsg astEval msg with
      | some items => items
      | none => findToolResult astEval toolCallId rest
    else findToolResult astEval toolCallId rest

/-- The accumulated `items_to_store`. -/
def collectItems (astEval : String → Option PyValue) (msgs : List PyValue)
    (toolCallIds : List String) : List PyValue :=
  toolCallIds.foldl (fun acc id => acc ++ findToolResult astEval id msgs) []

/-- Embedding of `store_tool_results(collection, tool_call_ids, messages)`.  The
document-store write `store.upsert_documents(collection,
_parse_documents_from_dict(items))` is an oracle returning the stored ids
or raising; the returned flag records whether it was invoked at all. -/
def store_tool_results (astEval : String → Option PyValue)
    (upsertDocs : List PyValue → Except String (List String))
    (collection : String) (toolCallIds : List String)
    (messages : Option (List PyValue)) : Except String (PyValue × Bool) :=
  -- `if not msgs:` covers both None and []
  let msgsOpt : Option (List PyValue) := match messages with
    | none => none
    | some ms => if ms.isEmpty then none else some ms
  match msgsOpt with
  | none =>
    .ok (.pdict [("error", .pstr "No messages provided"),
                 ("collection", .pstr collection), ("count", .pint 0)], false)
  | some msgs =>
    let items := collectItems astEval msgs toolCallIds
    if items.isEmpty then
      .ok (.pdict [("collection", .pstr collection), ("count", .pint 0),
                   ("message",
                    .pstr "No valid items found from the provided tool_call_ids")],
           false)
    else
      match upsertDocs items with
      | .error e => .error e
      | .ok ids =>
        .ok (.pdict [("collection", .pstr collection),
                     ("count", .pint (ids.length : Int)),
                     ("ids", .plist (ids.map .pstr)),
                     ("message",
                      .pstr ("Successfully stored " ++ toString ids.length ++
                             " items from " ++ toString toolCallIds.length ++
                             " tool calls"))], true)

/-! ### `filter_results` (filter_agent.py)

Documents are taken in their dict form (the image of `Document.to_dict()` —
the agent immediately converts every fetched document with `to_dict`).  The
pydantic-ai scoring agent is an oracle giving, per document, the score for
the i-th criterion, or `none` when `score_agent.run` raises (the
`except` path: the document is neither scored nor kept).  The float mean
is computed exactly in `Rat`; for the properties proved here only the
comparison `mean > 2` matters. -/

/-- The `scores_dict`: one entry per criterion name, later duplicates
overwrite (Python dict-comprehension semantics), value =
`getattr(output, "criterion_" + str(i + 1))` from the dynamic pydantic
model. -/
def buildScores (f : Nat → Int) : List String → Nat →
    List (String × PyValue) → List (String × PyValue)
  | [], _, acc => acc
  | c :: rest, i, acc => buildScores f rest (i + 1) (pyDictInsert acc c (.pint (f i)))

/-- Python `sum(scores_dict.values())` (all values are ints by construction). -/
def sumScoreVals (scores : List (String × PyValue)) : Int :=
  scores.foldl (fun s kv => s + (match kv.2 with | .pint n => n | _ => 0)) 0

/-- Embedding of `DocumentScore(...).to_dict()`.  Modelled from the spec: the
`DocumentScore` dataclass lives in `sotaforge/utils/models.py`, which is
not among the sources; per the spec's scoring schema it carries the
document title, the per-criterion scores, the mean score and the keep
verdict. -/
def documentScoreDict (title : PyValue) (scores : List (String × PyValue))
    (meanScore : Rat) (keep : Bool) : PyValue :=
  .pdict [("title", title), ("scores", .pdict scores),
          ("mean_score", .prat meanScore), ("keep", .pbool keep)]

/-- The `for doc in documents` scoring loop; returns
`(scored_documents, filtered_documents)` in emission order. -/
def scoreLoop (oracle : PyValue → Option (Nat → Int)) (criteria : List String) :
    List PyValue → List PyValue × List PyValue
  | [] => ([], [])
  | doc :: rest =>
    match oracle doc with
    | none => scoreLoop oracle criteria rest
    | some f =>
      let scores := buildScores f criteria 0 []
      let mean : Rat :=
        if !scores.isEmpty then (sumScoreVals scores : Rat) / (scores.length : Rat)
        else 0
      let keep : Bool := decide ((2 : Rat) < mean)
      let scored := documentScoreDict (pyGetD doc "title" (.pstr "Untitled"))
        scores mean keep
      let (scoredRest, filteredRest) := scoreLoop oracle criteria rest
      (scored :: scoredRest, if keep then doc :: filteredRest else filteredRest)

/-- Embedding of `filter_results(query, collection, criteria)` after the fetch of
`documents` from the collection. -/
def filter_results (oracle : PyValue → Option (Nat → Int))
    (query collection : String) (criteria : List String)
    (documents : List PyValue) : PyValue :=
  if documents.isEmpty then
    .pdict [("query", .pstr query), ("collection", .pstr collection),
            ("criteria", .plist []), ("scored_documents", .plist []),
            ("filtered_results", .plist []), ("count", .pint 0)]
  else
    let (scored, filtered) := scoreLoop oracle criteria documents
    .pdict [("query", .pstr query), ("collection", .pstr collection),
            ("criteria", .plist (criteria.map .pstr)),
            ("scored_documents", .plist scored),
            ("results", .plist filtered),
            ("count", .pint (filtered.length : Int))]

/-- Key-presence test on a dict result (`"k" in d`). -/
def pyHasKey (v : PyValue) (k : String) : Bool :=
  match v with
  | .pdict es => (lookupEntry es k).isSome
  | _ => false

/-- A bare tool-role turn, used as concrete transcript material. -/
def toolMsg : PyValue := .pdict [("role", .pstr "tool")]

/-! ## Helper lemmas about the trimming loop -/

lemma trimLoop_le (T : List PyValue) : ∀ s, trimLoop T s ≤ s := by
  intro s
  induction s with
  | zero => simp [trimLoop]
  | succ s ih =>
    simp only [trimLoop]
    split
    · exact le_trans ih (Nat.le_succ s)
    · exact le_refl _

lemma trimLoop_stop (T : List PyValue) (s : Nat) :
    trimLoop T s = 0 ∨ toolAt T (trimLoop T s) = false := by
  induction s with
  | zero => left; rfl
  | succ s ih =>
    by_cases h : toolAt T (s + 1) = true
    · simpa [trimLoop, h] using ih
    · right
      have h' : toolAt T (s + 1) = false := by simpa using h
      simp [trimLoop, h']

lemma trimLoop_between (T : List PyValue) :
    ∀ s j, trimLoop T s < j → j ≤ s → toolAt T j = true := by
  intro s
  induction s with
  | zero => intro j h1 h2; omega
  | succ s ih =>
    intro j h1 h2
    by_cases htool : toolAt T (s + 1) = true
    · simp only [trimLoop, htool, if_true] at h1
      rcases Nat.lt_or_ge j (s + 1) with hj | hj
      · exact ih j h1 (by omega)
      · have : j = s + 1 := by omega
        rw [this]; exact htool
    · have h' : toolAt T (s + 1) = false := by simpa using htool
      simp [trimLoop, h'] at h1
      omega

lemma toolAt_drop (T : List PyValue) (s j : Nat) :
    toolAt (T.drop s) j = toolAt T (s + j) := by
  simp only [toolAt, List.drop_drop]

lemma trimLoop_zero_of_all_tool (R : List PyValue) :
    ∀ k, (∀ j, 1 ≤ j → j ≤ k → toolAt R j = true) → trimLoop R k = 0 := by
  intro k
  induction k with
  | zero => intro _; rfl
  | succ k ih =>
    intro h
    have hk : toolAt R (k + 1) = true := h (k + 1) (by omega) (le_refl _)
    simp only [trimLoop, hk, if_true]
    exact ih (fun j h1 h2 => h j h1 (by omega))

/-! ## Claim theorems -/

/-- C6: step validation approves exactly when the assistant text, stripped
of surrounding whitespace and upper-cased, starts with "APPROVE"; for every
string s the predicate agrees with `s.strip().upper().startswith("APPROVE")`,
"approve: looks good" approves, "REDO: needs work" does not, and empty or
absent (None) content is never approved. -/
theorem approval_detection_spec :
    (∀ s : String, approvedOf (some s) = strStartsWith (pyUpper (pyStrip s)) "APPROVE")
    ∧ approvedOf none = false
    ∧ approvedOf (some "approve: looks good") = true
    ∧ approvedOf (some "REDO: needs work") = false
    ∧ approvedOf (some "") = false := by
  refine ⟨?_, rfl, rfl, rfl, rfl⟩
  intro s
  by_cases h : s = ""
  · subst h; rfl
  · simp only [approvedOf, beq_iff_eq, h, if_false]

/-- C8: tool-result normalization returns a dict unchanged, parses a JSON
string into the corresponding structured value, and returns a plain
non-JSON string unchanged (a failed parse is silently non-fatal). -/
theorem normalize_tool_result_spec :
    (∀ entries : List (String × PyValue),
        _normalize_tool_result (.pdict entries) = .pdict entries)
    ∧ _normalize_tool_result (.pstr "\x7b\"key\":\"value\"\x7d") =
        .pdict [("key", .pstr "value")]
    ∧ (∀ s : String, json_loads s = none →
        _normalize_tool_result (.pstr s) = .pstr s)
    ∧ _normalize_tool_result (.pstr "hello") = .pstr "hello" := by
  refine ⟨fun entries => rfl, rfl, ?_, rfl⟩
  intro s h
  show (json_loads s).getD (.pstr s) = .pstr s
  rw [h]
  rfl

/-- Witness for C8 at the concrete non-JSON string "plain text". -/
theorem normalize_tool_result_spec_witness :
    _normalize_tool_result (.pstr "plain text") = .pstr "plain text" :=
  normalize_tool_result_spec.2.2.1 "plain text" rfl

lemma validationLoop_all_false (validator : Nat → Bool)
    (hv : ∀ n, validator n = false) :
    ∀ r c, validationLoop validator false c r = (c + r, false) := by
  intro r
  induction r with
  | zero => intro c; rfl
  | succ r ih =>
    intro c
    simp [validationLoop, hv c, ih (c + 1)]
    omega

/-- C3: for every max_retries ≥ 1, a validator that never approves is
called exactly max_retries - 1 times, after which the step runner exits
without raising and emits the "completed with warnings" terminal event. -/
theorem run_pipeline_step_retry_bound (validator : Nat → Bool) (maxRetries : Nat)
    (_hmr : 1 ≤ maxRetries) (hv : ∀ n, validator n = false) :
    run_pipeline_step validator maxRetries =
      (maxRetries - 1, StepEvent.completedWithWarnings) := by
  simp [run_pipeline_step, validationLoop_all_false validator hv (maxRetries - 1) 0]

/-- Witness for C3 at max_retries = 3: the validator is called exactly
twice and the step completes with warnings. -/
theorem run_pipeline_step_retry_bound_witness :
    run_pipeline_step (fun _ => false) 3 = (2, StepEvent.completedWithWarnings) :=
  run_pipeline_step_retry_bound (fun _ => false) 3 (by omega) (fun _ => rfl)

/-- C1 (code bug): `_chat_with_rate_limit_retry` branches the wrong way on
the throttling-error text, contradicting its own docstring ("Non-retryable
errors (request too large) are raised immediately") and its log messages.
A transient throttle whose text has no size-violation phrase is propagated
immediately with no cooldown and no retry, while a "Request too large"
throttle gets the 60s-cooldown retry and the trimmed final attempt. -/
theorem rate_limit_retry_code_bug :
    (_chat_with_rate_limit_retry (α := Unit)
        (fun _ _ => .throttle ⟨"Rate limit reached, please try again in 20s."⟩)
        [.pdict [("role", .pstr "user")]]
      = (.error ⟨"Rate limit reached, please try again in 20s."⟩,
         [.chatCall [.pdict [("role", .pstr "user")]]]))
    ∧ (_chat_with_rate_limit_retry (α := Unit)
        (fun _ _ => .throttle ⟨"Request too large for gpt-4.1-nano"⟩)
        [.pdict [("role", .pstr "user")]]
      = (.error ⟨"Request too large for gpt-4.1-nano"⟩,
         [.chatCall [.pdict [("role", .pstr "user")]],
          .sleepSecs 60,
          .chatCall [.pdict [("role", .pstr "user")]],
          .sleepSecs 60,
          .chatCall [.pdict [("role", .pstr "user")]]])) :=
  ⟨rfl, rfl⟩

/-- C10: on an empty source collection `filter_results` reports count 0
with the kept documents under "filtered_results" and echoes an empty
criteria list; on a non-empty collection the kept documents appear under
"results", the supplied criteria are echoed unchanged, and count equals the
number of kept documents. -/
theorem filter_results_key_spec :
    (∀ (oracle : PyValue → Option (Nat → Int)) (q c : String) (crit : List String),
      pyGet (filter_results oracle q c crit []) "count" = .pint 0
      ∧ pyGet (filter_results oracle q c crit []) "filtered_results" = .plist []
      ∧ pyGet (filter_results oracle q c crit []) "criteria" = .plist []
      ∧ pyHasKey (filter_results oracle q c crit []) "results" = false)
    ∧ (∀ (oracle : PyValue → Option (Nat → Int)) (q c : String)
        (crit : List String) (docs : List PyValue), docs ≠ [] →
      pyGet (filter_results oracle q c crit docs) "results" =
          .plist (scoreLoop oracle crit docs).2
      ∧ pyGet (filter_results oracle q c crit docs) "count" =
          .pint ((scoreLoop oracle crit docs).2.length : Int)
      ∧ pyGet (filter_results oracle q c crit docs) "criteria" =
          .plist (crit.map .pstr)
      ∧ pyHasKey (filter_results oracle q c crit docs) "filtered_results" = false) := by
  refine ⟨fun oracle q c crit => ⟨rfl, rfl, rfl, rfl⟩, ?_⟩
  intro oracle q c crit docs hne
  cases docs with
  | nil => exact absurd rfl hne
  | cons d ds => exact ⟨rfl, rfl, rfl, rfl⟩

/-- Witness for C10's non-empty branch at a concrete one-document
collection with a constant scoring oracle. -/
theorem filter_results_key_spec_witness :
    pyGet (filter_results (fun _ => some fun _ => 3) "q" "col" ["relevance"]
        [.pdict [("title", .pstr "Doc")]]) "results" =
      .plist (scoreLoop (fun _ => some fun _ => 3) ["relevance"]
        [.pdict [("title", .pstr "Doc")]]).2
    ∧ pyGet (filter_results (fun _ => some fun _ => 3) "q" "col" ["relevance"]
        [.pdict [("title", .pstr "Doc")]]) "count" =
      .pint ((scoreLoop (fun _ => some fun _ => 3) ["relevance"]
        [.pdict [("title", .pstr "Doc")]]).2.length : Int)
    ∧ pyGet (filter_results (fun _ => some fun _ => 3) "q" "col" ["relevance"]
        [.pdict [("title", .pstr "Doc")]]) "criteria" =
      .plist (["relevance"].map .pstr)
    ∧ pyHasKey (filter_results (fun _ => some fun _ => 3) "q" "col" ["relevance"]
        [.pdict [("title", .pstr "Doc")]]) "filtered_results" = false :=
  filter_results_key_spec.2 (fun _ => some fun _ => 3) "q" "col" ["relevance"]
    [.pdict [("title", .pstr "Doc")]] (by simp)

lemma findToolResult_eq_nil (astEval : String → Option PyValue) (id : String) :
    ∀ msgs : List PyValue,
      (∀ m ∈ msgs, (isToolTurn m && toolCallIdMatches m id) = false) →
      findToolResult astEval id msgs = [] := by
  intro msgs
  induction msgs with
  | nil => intro _; rfl
  | cons m rest ih =>
    intro h
    have hm := h m (List.mem_cons_self m rest)
    simp only [findToolResult, hm, Bool.false_eq_true, if_false]
    exact ih (fun x hx => h x (List.mem_cons_of_mem m hx))

lemma collectItems_eq_nil (astEval : String → Option PyValue)
    (msgs : List PyValue) :
    ∀ (ids : List String) (acc : List PyValue),
      (∀ id ∈ ids, findToolResult astEval id msgs = []) →
      List.foldl (fun acc id => acc ++ findToolResult astEval id msgs) acc ids = acc := by
  intro ids
  induction ids with
  | nil => intro acc _; rfl
  | cons i rest ih =>
    intro acc h
    have hi := h i (List.mem_cons_self i rest)
    simp only [List.foldl_cons, hi, List.append_nil]
    exact ih acc (fun x hx => h x (List.mem_cons_of_mem i hx))

/-- C9: when `store_tool_results` gets no messages (None or empty) or no
tool-role message carries any of the requested tool_call_ids, it returns
count 0 with an explanatory message and the document-store upsert is never
invoked (the Bool component stays false), for every upsert oracle. -/
theorem store_tool_results_no_match_spec :
    (∀ (astEval : String → Option PyValue)
        (upsertDocs : List PyValue → Except String (List String))
        (collection : String) (ids : List String),
      store_tool_results astEval upsertDocs collection ids none =
        .ok (.pdict [("error", .pstr "No messages provided"),
                     ("collection", .pstr collection), ("count", .pint 0)], false))
    ∧ (∀ (astEval : String → Option PyValue)
        (upsertDocs : List PyValue → Except String (List String))
        (collection : String) (ids : List String),
      store_tool_results astEval upsertDocs collection ids (some []) =
        .ok (.pdict [("error", .pstr "No messages provided"),
                     ("collection", .pstr collection), ("count", .pint 0)], false))
    ∧ (∀ (astEval : String → Option PyValue)
        (upsertDocs : List PyValue → Except String (List String))
        (collection : String) (ids : List String) (msgs : List PyValue),
      msgs ≠ [] →
      (∀ m ∈ msgs, ∀ id ∈ ids, (isToolTurn m && toolCallIdMatches m id) = false) →
      store_tool_results astEval upsertDocs collection ids (some msgs) =
        .ok (.pdict [("collection", .pstr collection), ("count", .pint 0),
                     ("message",
                      .pstr "No valid items found from the provided tool_call_ids")],
             false)) := by
  refine ⟨fun _ _ _ _ => rfl, fun _ _ _ _ => rfl, ?_⟩
  intro astEval upsertDocs collection ids msgs hne hnomatch
  have hitems : collectItems astEval msgs ids = [] :=
    collectItems_eq_nil astEval msgs ids []
      (fun id hid => findToolResult_eq_nil astEval id msgs
        (fun m hm => hnomatch m hm id hid))
  cases msgs with
  | nil => exact absurd rfl hne
  | cons m rest =>
    simp [store_tool_results, hitems]

/-- Witness for C9's no-match branch: one assistant turn, one requested
id, no store write. -/
theorem store_tool_results_no_match_spec_witness :
    store_tool_results (fun _ => none) (fun _ => .ok []) "col" ["call_1"]
        (some [.pdict [("role", .pstr "assistant")]]) =
      .ok (.pdict [("collection", .pstr "col"), ("count", .pint 0),
                   ("message",
                    .pstr "No valid items found from the provided tool_call_ids")],
           false) :=
  store_tool_results_no_match_spec.2.2 (fun _ => none) (fun _ => .ok []) "col"
    ["call_1"] [.pdict [("role", .pstr "assistant")]] (by simp)
    (by
      intro m hm id hid
      rw [List.mem_singleton] at hm
      subst hm
      rfl)

/-- C5 counterexample: the HTTP request model's only topic constraint is
`min_length=1`, which the whitespace-only topic " " satisfies, even though
" " is whitespace-only (its strip is empty); so the claim that an empty
*or whitespace-only* topic is rejected before any stage runs fails on the
HTTP entry path. -/
theorem whitespace_topic_passes_api :
    sotaRequestValid " " = true ∧ pyStrip " " = "" := ⟨rfl, rfl⟩

/-- C5 (amended): `run_llm_sota` yields a record with keys topic /
status ("completed") / text; the CLI entry `call_produce_sota` rejects
both empty and whitespace-only topics before any stage runs; the HTTP
request model `SOTARequest` rejects exactly the empty topic. -/
theorem run_entry_point_spec :
    (∀ (topic : String) (msgs : List PyValue) (t : String),
      _extract_synthesized_sota_text msgs = .ok t →
      run_llm_sota_result topic msgs =
        .ok (.pdict [("topic", .pstr topic), ("status", .pstr "completed"),
                     ("text", .pstr t)]))
    ∧ (∀ topic : String, topic = "" ∨ pyStrip topic = "" →
      call_produce_sota_guard topic = .error "Topic cannot be empty")
    ∧ sotaRequestValid "" = false
    ∧ (∀ topic : String, topic ≠ "" → sotaRequestValid topic = true) := by
  refine ⟨?_, ?_, rfl, ?_⟩
  · intro topic msgs t h
    simp [run_llm_sota_result, h]
  · intro topic h
    rcases h with h | h
    · subst h; rfl
    · simp [call_produce_sota_guard, h]
  · intro topic h
    cases topic with
    | mk data =>
      cases data with
      | nil => exact absurd rfl h
      | cons c cs =>
        simp [sotaRequestValid, String.length]

/-- Witness for C5's amended record shape on an empty transcript. -/
theorem run_entry_point_spec_witness :
    run_llm_sota_result "Edge Computing" [] =
      .ok (.pdict [("topic", .pstr "Edge Computing"),
                   ("status", .pstr "completed"), ("text", .pstr "")]) :=
  run_entry_point_spec.1 "Edge Computing" [] "" rfl

lemma extractScan_all_skip :
    ∀ l : List PyValue, (∀ m ∈ l, scanMsg m = .skip) → extractScan l = .ok "" := by
  intro l
  induction l with
  | nil => intro _; rfl
  | cons m rest ih =>
    intro h
    have hm := h m (List.mem_cons_self m rest)
    simp only [extractScan, hm]
    exact ih (fun x hx => h x (List.mem_cons_of_mem m hx))

lemma extractScan_append_skip :
    ∀ l1 : List PyValue, (∀ m ∈ l1, scanMsg m = .skip) →
      ∀ l2, extractScan (l1 ++ l2) = extractScan l2 := by
  intro l1
  induction l1 with
  | nil => intro _ l2; rfl
  | cons m rest ih =>
    intro h l2
    have hm := h m (List.mem_cons_self m rest)
    simp only [List.cons_append, extractScan, hm]
    exact ih (fun x hx => h x (List.mem_cons_of_mem m hx)) l2

/-- C4: the final report is found by scanning the transcript backward for
the most recent tool turn whose tool name equals "synthesizer_write_sota"
or ends with "write_sota", extracting the result's "text" field with
"sota" as fallback; a matching turn is found even when non-matching tool
turns follow it, and when no turn yields a string text the run completes
with an empty report text instead of failing. -/
theorem extract_sota_scan_spec :
    (∀ (pre post : List PyValue) (msg : PyValue) (t : String),
      scanMsg msg = .found t → (∀ m ∈ post, scanMsg m = .skip) →
      _extract_synthesized_sota_text (pre ++ msg :: post) = .ok t)
    ∧ (∀ msgs : List PyValue, (∀ m ∈ msgs, scanMsg m = .skip) →
      _extract_synthesized_sota_text msgs = .ok "")
    ∧ (∀ (topic : String) (msgs : List PyValue), (∀ m ∈ msgs, scanMsg m = .skip) →
      run_llm_sota_result topic msgs =
        .ok (.pdict [("topic", .pstr topic), ("status", .pstr "completed"),
                     ("text", .pstr "")]))
    ∧ (∀ (name t : String) (rentries : List (String × PyValue)),
      (name == "synthesizer_write_sota" || strEndsWith name "write_sota") = true →
      lookupEntry rentries "text" = some (.pstr t) → t ≠ "" →
      scanMsg (.pdict [("role", .pstr "tool"),
                       ("content", .pdict [("tool_name", .pstr name),
                                           ("result", .pdict rentries)])]) = .found t)
    ∧ (∀ (name t : String) (rentries : List (String × PyValue)),
      (name == "synthesizer_write_sota" || strEndsWith name "write_sota") = true →
      lookupEntry rentries "text" = none →
      lookupEntry rentries "sota" = some (.pstr t) → t ≠ "" →
      scanMsg (.pdict [("role", .pstr "tool"),
                       ("content", .pdict [("tool_name", .pstr name),
                                           ("result", .pdict rentries)])]) = .found t) := by
  have hknown : ∀ (name : String),
      (name == "synthesizer_write_sota" || strEndsWith name "write_sota") = true →
      (name == "") = false := by
    intro name hname
    rcases hn : name == "" with _ | _
    · rfl
    · rw [beq_iff_eq] at hn
      subst hn
      exact absurd hname (by decide)
  refine ⟨?_, ?_, ?_, ?_, ?_⟩
  · intro pre post msg t hfound hskip
    have hrev : (pre ++ msg :: post).reverse =
        post.reverse ++ (msg :: pre.reverse) := by
      simp [List.reverse_append]
    rw [_extract_synthesized_sota_text, hrev,
      extractScan_append_skip post.reverse
        (fun m hm => hskip m (List.mem_reverse.mp hm))]
    simp [extractScan, hfound]
  · intro msgs h
    exact extractScan_all_skip msgs.reverse
      (fun m hm => h m (List.mem_reverse.mp hm))
  · intro topic msgs h
    have := extractScan_all_skip msgs.reverse
      (fun m hm => h m (List.mem_reverse.mp hm))
    simp [run_llm_sota_result, _extract_synthesized_sota_text, this]
  · intro name t rentries hname htext ht
    have h1 := hknown name hname
    have h2 : (t == "") = false := by
      rcases hteq : t == "" with _ | _
      · rfl
      · rw [beq_iff_eq] at hteq; exact absurd hteq ht
    simp [scanMsg, isDict, isToolTurn, pyGet, lookupEntry, pyTruthy, h1, h2,
      hname, htext]
  · intro name t rentries hname htext hsota ht
    have h1 := hknown name hname
    have h2 : (t == "") = false := by
      rcases hteq : t == "" with _ | _
      · rfl
      · rw [beq_iff_eq] at hteq; exact absurd hteq ht
    simp [scanMsg, isDict, isToolTurn, pyGet, lookupEntry, pyTruthy, h1, h2,
      hname, htext, hsota]

/-- Witness for C4: end-to-end scenario 3 — the synthesis tool result
turn is located and extracted even with trailing non-matching turns. -/
theorem extract_sota_scan_spec_witness :
    _extract_synthesized_sota_text
      ([.pdict [("role", .pstr "system"), ("content", .pstr "sys")]] ++
        .pdict [("role", .pstr "tool"), ("tool_call_id", .pstr "c1"),
                ("content",
                 .pstr "\x7b\"tool_name\": \"synthesizer_write_sota\", \"result\": \x7b\"text\": \"Report body\"\x7d\x7d")] ::
        [.pdict [("role", .pstr "tool"), ("tool_call_id", .pstr "c2"),
                 ("content",
                  .pstr "\x7b\"tool_name\": \"db_store_records\", \"result\": \x7b\"count\": 2\x7d\x7d")],
         .pdict [("role", .pstr "assistant"), ("content", .pstr "done")]]) =
      .ok "Report body" :=
  extract_sota_scan_spec.1
    [.pdict [("role", .pstr "system"), ("content", .pstr "sys")]]
    [.pdict [("role", .pstr "tool"), ("tool_call_id", .pstr "c2"),
             ("content",
              .pstr "\x7b\"tool_name\": \"db_store_records\", \"result\": \x7b\"count\": 2\x7d\x7d")],
     .pdict [("role", .pstr "assistant"), ("content", .pstr "done")]]
    (.pdict [("role", .pstr "tool"), ("tool_call_id", .pstr "c1"),
             ("content",
              .pstr "\x7b\"tool_name\": \"synthesizer_write_sota\", \"result\": \x7b\"text\": \"Report body\"\x7d\x7d")])
    "Report body" rfl
    (by intro m hm; fin_cases hm <;> rfl)

lemma trimLoop_id_of_not_tool (T : List PyValue) (n : Nat)
    (h : toolAt T n = false) : trimLoop T n = n := by
  cases n with
  | zero => rfl
  | succ k => simp [trimLoop, h]

/-- C2 counterexample: on the transcript [tool, tool] with limit 1 the
backward walk extends the suffix to the whole transcript, so the result
has length 2 > max(1,1) and begins with a tool turn even though the
transcript is not shorter than the limit. -/
theorem trim_claim_counterexample :
    _trim_message_history [toolMsg, toolMsg] 1 = [toolMsg, toolMsg]
    ∧ ¬((_trim_message_history [toolMsg, toolMsg] 1).length ≤ max 1 1)
    ∧ (_trim_message_history [toolMsg, toolMsg] 1).head? = some toolMsg
    ∧ isToolTurn toolMsg = true
    ∧ ¬((_trim_message_history [toolMsg, toolMsg] 1).length < 1)
    ∧ ¬([toolMsg, toolMsg].length < 1) := by
  refine ⟨rfl, by decide, rfl, rfl, by decide, by decide⟩

/-- C2 (amended): trimming returns a contiguous suffix of the transcript;
a transcript within the limit is returned whole; otherwise at least the
last L turns are kept; the suffix never begins with a tool turn unless the
backward walk reached the start (the result is then the whole transcript,
so it never walks past the start); and the length bound max(L,1) holds
whenever the turn at the naive cut point is not a tool turn. -/
theorem trim_suffix_spec (T : List PyValue) (L : Nat) :
    (_trim_message_history T L) <:+ T
    ∧ (T.length ≤ L → _trim_message_history T L = T)
    ∧ (L < T.length → L ≤ (_trim_message_history T L).length)
    ∧ (∀ m, (_trim_message_history T L).head? = some m → isToolTurn m = true →
        _trim_message_history T L = T)
    ∧ (T.length ≤ L ∨ toolAt T (T.length - L) = false →
        (_trim_message_history T L).length ≤ max L 1) := by
  by_cases hle : T.length ≤ L
  · have h1 : _trim_message_history T L = T := by simp [_trim_message_history, hle]
    refine ⟨by rw [h1], fun _ => h1, fun h => absurd h (by omega),
      fun m _ _ => h1, fun _ => ?_⟩
    rw [h1]
    omega
  · have hlt : L < T.length := by omega
    have hsle : trimLoop T (T.length - L) ≤ T.length - L := trimLoop_le T _
    have htrim : _trim_message_history T L = T.drop (trimLoop T (T.length - L)) := by
      simp [_trim_message_history, hle]
    refine ⟨by rw [htrim]; exact List.drop_suffix _ T, fun h => absurd h hle,
      fun _ => ?_, ?_, ?_⟩
    · rw [htrim, List.length_drop]
      omega
    · intro m hhead htool
      rcases trimLoop_stop T (T.length - L) with h0 | hnt
      · rw [htrim, h0]
        exact List.drop_zero T
      · rw [htrim] at hhead
        have : toolAt T (trimLoop T (T.length - L)) = true := by
          simp [toolAt, hhead, htool]
        rw [this] at hnt
        exact absurd hnt (by simp)
    · intro h
      rcases h with h | h
      · exact absurd h hle
      · have hid := trimLoop_id_of_not_tool T (T.length - L) h
        rw [htrim, hid, List.length_drop]
        omega

/-- Witness for C2's amended theorem: a one-turn transcript within the
limit is returned whole. -/
theorem trim_suffix_spec_witness :
    _trim_message_history [toolMsg] 2 = [toolMsg] :=
  (trim_suffix_spec [toolMsg] 2).2.1 (by decide)

/-- C7: message-history trimming is idempotent:
trim(trim(T, L), L) = trim(T, L) for every transcript and limit. -/
theorem trim_idempotent (T : List PyValue) (L : Nat) :
    _trim_message_history (_trim_message_history T L) L =
      _trim_message_history T L := by
  by_cases hle : T.length ≤ L
  · have h1 : _trim_message_history T L = T := by simp [_trim_message_history, hle]
    rw [h1]
    exact h1
  · have hsle : trimLoop T (T.length - L) ≤ T.length - L := trimLoop_le T _
    have htrim : _trim_message_history T L = T.drop (trimLoop T (T.length - L)) := by
      simp [_trim_message_history, hle]
    rw [htrim]
    have hRlen : (T.drop (trimLoop T (T.length - L))).length =
        T.length - trimLoop T (T.length - L) := List.length_drop _ _
    by_cases h2 : (T.drop (trimLoop T (T.length - L))).length ≤ L
    · unfold _trim_message_history
      rw [if_pos h2]
    · have hall : ∀ j, 1 ≤ j →
          j ≤ (T.drop (trimLoop T (T.length - L))).length - L →
          toolAt (T.drop (trimLoop T (T.length - L))) j = true := by
        intro j h1j h2j
        rw [toolAt_drop]
        apply trimLoop_between T (T.length - L)
        · omega
        · omega
      have hloop : trimLoop (T.drop (trimLoop T (T.length - L)))
          ((T.drop (trimLoop T (T.length - L))).length - L) = 0 :=
        trimLoop_zero_of_all_tool _ _ hall
      unfold _trim_message_history
      rw [if_neg h2, hloop]
      exact List.drop_zero _
